import Mathlib

/-!
# Verification of the Spread_Eagle ingestion engine

Shallow embedding of the date-window planner, extractor dedup, retry loop,
staging/validation/finalize DAG, upsert merge, manifest recording and the
orchestrator of the Spread_Eagle repository, with theorems checking the
natural-language specification against the embedded code.

Source files embedded:
* `src/dags/daily_full_refresh.py`
* `src/spread_eagle/ingest/cbb_v2/common.py`
* `src/spread_eagle/ingest/cbb_v2/run_ingest.py`
* `src/spread_eagle/ingest/incremental/_common.py`
* `src/spread_eagle/ingest/incremental/cbb_rolling.py`
* `src/spread_eagle/ingest/cbb/load_cdc_to_postgres.py`
* `src/spread_eagle/ingest/cbb/upsert_incremental.py`
-/

/-! ## Date-window planner (`cbb_v2/common.py`, `generate_month_ranges`) -/

/-- A calendar timestamp.  `generate_month_ranges` builds ISO strings of the
form `YYYY-MM-DDThh:mm:ssZ`; the embedding keeps the six numeric components
that such a string displays, so a window is a pair of `DateTime` values. -/
structure DateTime where
  year : Nat
  month : Nat
  day : Nat
  hour : Nat
  minute : Nat
  second : Nat
deriving DecidableEq, Repr

/-- Linearisation of a timestamp.  For component values in their calendar
ranges (`month ≤ 12 < 13`, `day ≤ 31 < 32`, `hour ≤ 23 < 24`,
`minute, second ≤ 59 < 60`) this is strictly monotone in chronological
order, so `dtLe`/`dtLt` below agree with the order of the ISO strings. -/
def DateTime.lin (t : DateTime) : Nat :=
  ((((t.year * 13 + t.month) * 32 + t.day) * 24 + t.hour) * 60 + t.minute) * 60 + t.second

/-- Chronological `≤` on timestamps (spec-side notion used to state window
coverage; the source never compares the strings itself). -/
def dtLe (a b : DateTime) : Bool := decide (a.lin ≤ b.lin)

/-- Chronological `<` on timestamps. -/
def dtLt (a b : DateTime) : Bool := decide (a.lin < b.lin)

/-- Python tuple comparison `(year, month) <= (end_year, end_month)` used as
the loop condition of `generate_month_ranges`. -/
def lexLe (a b : Nat × Nat) : Bool :=
  decide (a.1 < b.1) || (decide (a.1 = b.1) && decide (a.2 ≤ b.2))

/-- Start-of-month timestamp: `f"{year}-{month:02d}-01T00:00:00Z"`. -/
def month_window_start (year month : Nat) : DateTime :=
  ⟨year, month, 1, 0, 0, 0⟩

/-- End-of-month timestamp computed by the `if/elif` chain in
`generate_month_ranges`: December ends on the 31st, the 30-day months on the
30th, February always on the 28th, every other month on the 31st. -/
def month_window_end (year month : Nat) : DateTime :=
  if month = 12 then ⟨year, 12, 31, 23, 59, 59⟩
  else if month = 4 ∨ month = 6 ∨ month = 9 ∨ month = 11 then ⟨year, month, 30, 23, 59, 59⟩
  else if month = 2 then ⟨year, 2, 28, 23, 59, 59⟩
  else ⟨year, month, 31, 23, 59, 59⟩

/-- Loop body of `generate_month_ranges`.  Each iteration appends the window
for the current `(year, month)` and advances `month += 1`, wrapping to
January of the next year when the month exceeds 12.  `fuel` bounds the
number of iterations; `generate_month_ranges` passes exactly the number of
iterations the Python `while` loop performs for months in `1..12`. -/
def grmGo : Nat → Nat → Nat → Nat → Nat → List (DateTime × DateTime)
  | 0, _, _, _, _ => []
  | Nat.succ fuel, year, month, end_year, end_month =>
    if lexLe (year, month) (end_year, end_month) then
      (month_window_start year month, month_window_end year month) ::
        (let m2 := month + 1
         if 12 < m2 then grmGo fuel (year + 1) 1 end_year end_month
         else grmGo fuel year m2 end_year end_month)
    else []

/-- `generate_month_ranges(start_year, start_month, end_year, end_month)`
from `cbb_v2/common.py`: monthly `(start, end)` windows from the start month
through the end month inclusive. -/
def generate_month_ranges (start_year start_month end_year end_month : Nat) :
    List (DateTime × DateTime) :=
  grmGo (12 * end_year + end_month + 1 - (12 * start_year + start_month))
    start_year start_month end_year end_month

/-- True number of days of a calendar month, leap years included — the
spec-side notion the planner's windows are compared against. -/
def daysInMonth (year month : Nat) : Nat :=
  if month = 2 then
    (if (year % 4 = 0 ∧ ¬ year % 100 = 0) ∨ year % 400 = 0 then 29 else 28)
  else if month = 4 ∨ month = 6 ∨ month = 9 ∨ month = 11 then 30
  else 31

/-- A timestamp whose components lie in their calendar ranges. -/
def validDT (t : DateTime) : Prop :=
  1 ≤ t.month ∧ t.month ≤ 12 ∧ 1 ≤ t.day ∧ t.day ≤ daysInMonth t.year t.month ∧
    t.hour ≤ 23 ∧ t.minute ≤ 59 ∧ t.second ≤ 59

instance : DecidablePred validDT := fun t => by unfold validDT; infer_instance

/-- The window of month index `i` (month index `12*year + month`). -/
def windowOfIdx (i : Nat) : DateTime × DateTime :=
  (month_window_start ((i - 1) / 12) ((i - 1) % 12 + 1),
   month_window_end ((i - 1) / 12) ((i - 1) % 12 + 1))

theorem lexLe_iff_idx {y m Y M : Nat} (hm1 : 1 ≤ m) (hm2 : m ≤ 12)
    (hM1 : 1 ≤ M) (hM2 : M ≤ 12) :
    lexLe (y, m) (Y, M) = true ↔ 12 * y + m ≤ 12 * Y + M := by
  simp only [lexLe, Bool.or_eq_true, Bool.and_eq_true, decide_eq_true_eq]
  omega

theorem grmGo_eq_map (n : Nat) : ∀ y m ey em, 1 ≤ m → m ≤ 12 → 1 ≤ em → em ≤ 12 →
    n = 12 * ey + em + 1 - (12 * y + m) →
    grmGo n y m ey em = (List.range' (12 * y + m) n).map windowOfIdx := by
  induction n with
  | zero => intro y m ey em _ _ _ _ _; simp [grmGo]
  | succ k ih =>
    intro y m ey em hm1 hm2 hem1 hem2 hn
    have hle : 12 * y + m ≤ 12 * ey + em := by omega
    have hlex : lexLe (y, m) (ey, em) = true := (lexLe_iff_idx hm1 hm2 hem1 hem2).2 hle
    have hwin : windowOfIdx (12 * y + m) =
        (month_window_start y m, month_window_end y m) := by
      have h1 : (12 * y + m - 1) / 12 = y := by omega
      have h2 : (12 * y + m - 1) % 12 + 1 = m := by omega
      simp [windowOfIdx, h1, h2]
    rw [List.range'_succ, List.map_cons, hwin]
    simp only [grmGo, hlex, if_true]
    by_cases h12 : 12 < m + 1
    · have hm : m = 12 := by omega
      have := ih (y + 1) 1 ey em (by omega) (by omega) hem1 hem2 (by omega)
      simp only [h12, if_true]
      rw [this]
      have : 12 * (y + 1) + 1 = 12 * y + m + 1 := by omega
      rw [this]
    · have := ih y (m + 1) ey em (by omega) (by omega) hem1 hem2 (by omega)
      simp only [h12, if_false]
      rw [this, Nat.add_assoc]

theorem generate_month_ranges_eq (sy sm ey em : Nat)
    (hsm1 : 1 ≤ sm) (hsm2 : sm ≤ 12) (hem1 : 1 ≤ em) (hem2 : em ≤ 12) :
    generate_month_ranges sy sm ey em =
      (List.range' (12 * sy + sm) (12 * ey + em + 1 - (12 * sy + sm))).map windowOfIdx :=
  grmGo_eq_map _ sy sm ey em hsm1 hsm2 hem1 hem2 rfl

theorem month_window_end_shape (y m : Nat) :
    ∃ d, month_window_end y m = ⟨y, m, d, 23, 59, 59⟩ ∧ d ≤ 31 ∧
      ((m = 2 ∧ d = 28) ∨ (¬ m = 2 ∧ d = daysInMonth y m)) := by
  by_cases h1 : m = 12
  · subst h1
    exact ⟨31, by simp [month_window_end], by omega, Or.inr ⟨by omega, by simp [daysInMonth]⟩⟩
  · by_cases h2 : m = 4 ∨ m = 6 ∨ m = 9 ∨ m = 11
    · refine ⟨30, by simp [month_window_end, h1, h2], by omega,
        Or.inr ⟨by omega, ?_⟩⟩
      have hm2 : ¬ m = 2 := by omega
      simp [daysInMonth, hm2, h2]
    · by_cases h3 : m = 2
      · subst h3
        exact ⟨28, by simp [month_window_end], by omega, Or.inl ⟨rfl, rfl⟩⟩
      · exact ⟨31, by simp [month_window_end, h1, h2, h3], by omega,
          Or.inr ⟨h3, by simp [daysInMonth, h2, h3]⟩⟩

theorem month_end_lt_next_start {y m Y M : Nat} (hm2 : m ≤ 12) (hM1 : 1 ≤ M)
    (hM2 : M ≤ 12) (h : 12 * y + m < 12 * Y + M) :
    dtLt (month_window_end y m) (month_window_start Y M) = true := by
  obtain ⟨d, he, hd31, _⟩ := month_window_end_shape y m
  simp only [dtLt, he, month_window_start, DateTime.lin, decide_eq_true_eq]
  omega

theorem window_end_lt_start {i j : Nat} (hi : 1 ≤ i) (hij : i < j) :
    dtLt (windowOfIdx i).2 (windowOfIdx j).1 = true := by
  unfold windowOfIdx
  apply month_end_lt_next_start (by omega) (by omega) (by omega)
  omega

theorem daysInMonth_feb_le (y : Nat) : daysInMonth y 2 ≤ 29 := by
  have h : daysInMonth y 2 =
      if (y % 4 = 0 ∧ ¬ y % 100 = 0) ∨ y % 400 = 0 then 29 else 28 := by
    simp [daysInMonth]
  rw [h]
  split <;> omega

theorem window_covers {t : DateTime} (hv : validDT t)
    (hfeb : ¬(t.month = 2 ∧ t.day = 29)) :
    dtLe (month_window_start t.year t.month) t = true ∧
    dtLe t (month_window_end t.year t.month) = true := by
  obtain ⟨hm1, hm2, hd1, hd2, hh, hmin, hs⟩ := hv
  obtain ⟨d, he, hd31, hcase⟩ := month_window_end_shape t.year t.month
  have hdle : t.day ≤ d := by
    rcases hcase with ⟨h2, hd28⟩ | ⟨h2, hdm⟩
    · have hle29 : daysInMonth t.year t.month ≤ 29 := by rw [h2]; exact daysInMonth_feb_le t.year
      have hne : ¬ t.day = 29 := fun hd => hfeb ⟨h2, hd⟩
      omega
    · omega
  constructor
  · simp only [dtLe, month_window_start, DateTime.lin, decide_eq_true_eq]
    omega
  · simp only [dtLe, he, DateTime.lin, decide_eq_true_eq]
    omega

/-- C2, the claim as stated fails: for the 2024 season pull
(`generate_month_ranges 2023 11 2024 4`, the range `fetch_by_date_ranges`
requests for season 2024), the February window ends at
`2024-02-28T23:59:59Z` although 2024 is a leap year, and the leap-day
instant `2024-02-29T12:00:00Z` — inside the requested range — lies in no
window at all. -/
theorem c2_counterexample :
    ((⟨2024, 2, 1, 0, 0, 0⟩, ⟨2024, 2, 28, 23, 59, 59⟩) ∈
        generate_month_ranges 2023 11 2024 4)
    ∧ validDT ⟨2024, 2, 29, 12, 0, 0⟩
    ∧ (generate_month_ranges 2023 11 2024 4).all
        (fun w => !(dtLe w.1 ⟨2024, 2, 29, 12, 0, 0⟩ &&
                    dtLe ⟨2024, 2, 29, 12, 0, 0⟩ w.2)) = true := by
  refine ⟨by decide, by decide, by decide⟩

/-- C2 (amended): for start and end months in `1..12`,
`generate_month_ranges` returns an ordered, non-overlapping list of monthly
windows, and every valid instant whose month lies between the start month
and the end month is covered by some window — except a leap-year
February 29, which the planner's fixed `02-28` end date leaves outside
every window. -/
theorem c2_month_ranges_amended (sy sm ey em : Nat)
    (hsm1 : 1 ≤ sm) (hsm2 : sm ≤ 12) (hem1 : 1 ≤ em) (hem2 : em ≤ 12) :
    List.Pairwise (fun w1 w2 => dtLt w1.2 w2.1 = true)
        (generate_month_ranges sy sm ey em)
    ∧ (∀ t : DateTime, validDT t →
        lexLe (sy, sm) (t.year, t.month) = true →
        lexLe (t.year, t.month) (ey, em) = true →
        ¬(t.month = 2 ∧ t.day = 29) →
        ∃ w ∈ generate_month_ranges sy sm ey em,
          dtLe w.1 t = true ∧ dtLe t w.2 = true) := by
  rw [generate_month_ranges_eq sy sm ey em hsm1 hsm2 hem1 hem2]
  constructor
  · rw [List.pairwise_map]
    have hp := List.pairwise_lt_range' (12 * sy + sm)
      (12 * ey + em + 1 - (12 * sy + sm))
    refine hp.imp_of_mem ?_
    intro a b ha hb hab
    have ha1 := (List.mem_range'_1.mp ha).1
    exact window_end_lt_start (by omega) hab
  · intro t hv hs he hfeb
    have hvm := hv
    obtain ⟨hm1, hm2, _⟩ := hvm
    have hsle : 12 * sy + sm ≤ 12 * t.year + t.month :=
      (lexLe_iff_idx hsm1 hsm2 hm1 hm2).mp hs
    have hele : 12 * t.year + t.month ≤ 12 * ey + em :=
      (lexLe_iff_idx hm1 hm2 hem1 hem2).mp he
    refine ⟨windowOfIdx (12 * t.year + t.month), ?_, ?_⟩
    · exact List.mem_map_of_mem windowOfIdx (List.mem_range'_1.mpr ⟨hsle, by omega⟩)
    · have h1 : (12 * t.year + t.month - 1) / 12 = t.year := by omega
      have h2 : (12 * t.year + t.month - 1) % 12 + 1 = t.month := by omega
      rw [windowOfIdx, h1, h2]
      exact window_covers hv hfeb

/-- Witness for `c2_month_ranges_amended` at the 2024-season range. -/
theorem c2_month_ranges_amended_witness :
    List.Pairwise (fun w1 w2 => dtLt w1.2 w2.1 = true)
        (generate_month_ranges 2023 11 2024 4)
    ∧ (∀ t : DateTime, validDT t →
        lexLe (2023, 11) (t.year, t.month) = true →
        lexLe (t.year, t.month) (2024, 4) = true →
        ¬(t.month = 2 ∧ t.day = 29) →
        ∃ w ∈ generate_month_ranges 2023 11 2024 4,
          dtLe w.1 t = true ∧ dtLe t w.2 = true) :=
  c2_month_ranges_amended 2023 11 2024 4 (by decide) (by decide) (by decide) (by decide)

/-! ## Records and extraction-stage dedup
(`incremental/_common.py`, `cbb_v2/common.py`) -/

/-- A raw API record: a JSON object embedded as a list of field/value
pairs.  A field mapped to `none` models JSON `null`. -/
abbrev RecT (α : Type) := List (String × Option α)

variable {α : Type} [DecidableEq α]

/-- Python `r.get(k)`: the value of field `k`, `none` when the field is
absent or its value is null. -/
def rget (r : RecT α) (k : String) : Option α :=
  match r.lookup k with
  | some v => v
  | none => none

/-- `tuple(r.get(k) for k in key_fields)` — the composite key that
`dedupe_records` builds for each record. -/
def keyOf (r : RecT α) (key_fields : List String) : List (Option α) :=
  key_fields.map (rget r)

/-- The `for r in records` loop of `dedupe_records` in
`incremental/_common.py`, threading the `seen` key set. -/
def ddGo (ks : List String) (seen : List (List (Option α))) :
    List (RecT α) → List (RecT α)
  | [] => []
  | r :: rs =>
    if keyOf r ks ∈ seen then ddGo ks seen rs
    else r :: ddGo ks (keyOf r ks :: seen) rs

/-- `dedupe_records(records, key_fields)` from `incremental/_common.py`:
deduplicate records by composite key, first occurrence wins. -/
def dedupe_records (records : List (RecT α)) (key_fields : List String) :
    List (RecT α) :=
  ddGo key_fields [] records

/-- Independent characterisation of "exactly the first occurrence of each
composite key, in original order": keep the head, drop every later record
carrying the head's key, recurse on the rest. -/
def dedupFirstSpec (ks : List String) : List (RecT α) → List (RecT α)
  | [] => []
  | r :: rs =>
    r :: dedupFirstSpec ks (rs.filter (fun q => !(decide (keyOf q ks = keyOf r ks))))
termination_by l => l.length
decreasing_by
  exact Nat.lt_succ_of_le (List.length_filter_le _ _)

theorem dedupFirstSpec_cons (ks : List String) (r : RecT α) (rs : List (RecT α)) :
    dedupFirstSpec ks (r :: rs) =
      r :: dedupFirstSpec ks
        (rs.filter (fun q => !(decide (keyOf q ks = keyOf r ks)))) := by
  rw [dedupFirstSpec]

theorem ddGo_eq_spec (ks : List String) (l : List (RecT α)) :
    ∀ seen, ddGo ks seen l =
      dedupFirstSpec ks (l.filter (fun r => !(decide (keyOf r ks ∈ seen)))) := by
  induction l with
  | nil => intro seen; simp [ddGo, dedupFirstSpec]
  | cons r rs ih =>
    intro seen
    by_cases hmem : keyOf r ks ∈ seen
    · rw [show ddGo ks seen (r :: rs) = ddGo ks seen rs from by simp [ddGo, hmem]]
      rw [show (r :: rs).filter (fun x => !(decide (keyOf x ks ∈ seen))) =
            rs.filter (fun x => !(decide (keyOf x ks ∈ seen))) from by
          simp [List.filter_cons, hmem]]
      exact ih seen
    · rw [show ddGo ks seen (r :: rs) =
            r :: ddGo ks (keyOf r ks :: seen) rs from by simp [ddGo, hmem]]
      rw [show (r :: rs).filter (fun x => !(decide (keyOf x ks ∈ seen))) =
            r :: rs.filter (fun x => !(decide (keyOf x ks ∈ seen))) from by
          simp [List.filter_cons, hmem]]
      rw [dedupFirstSpec_cons, ih (keyOf r ks :: seen), List.filter_filter]
      refine congrArg (fun l => r :: dedupFirstSpec ks l) (List.filter_congr ?_)
      intro q hq
      by_cases h1 : keyOf q ks = keyOf r ks <;> by_cases h2 : keyOf q ks ∈ seen <;>
        simp [h1, h2]

theorem ddGo_sublist (ks : List String) (l : List (RecT α)) :
    ∀ seen, (ddGo ks seen l).Sublist l := by
  induction l with
  | nil => intro seen; simp [ddGo]
  | cons r rs ih =>
    intro seen
    by_cases hmem : keyOf r ks ∈ seen
    · rw [show ddGo ks seen (r :: rs) = ddGo ks seen rs from by simp [ddGo, hmem]]
      exact (ih seen).cons r
    · rw [show ddGo ks seen (r :: rs) =
            r :: ddGo ks (keyOf r ks :: seen) rs from by simp [ddGo, hmem]]
      exact (ih (keyOf r ks :: seen)).cons₂ r

theorem ddGo_covers (ks : List String) (l : List (RecT α)) :
    ∀ seen r, r ∈ l → keyOf r ks ∉ seen →
      ∃ q ∈ ddGo ks seen l, keyOf q ks = keyOf r ks := by
  induction l with
  | nil => intro seen r hr _; cases hr
  | cons x rs ih =>
    intro seen r hr hseen
    by_cases hmem : keyOf x ks ∈ seen
    · rw [show ddGo ks seen (x :: rs) = ddGo ks seen rs from by simp [ddGo, hmem]]
      rcases List.mem_cons.mp hr with heq | htail
      · exact absurd (heq ▸ hmem) (heq ▸ hseen)
      · exact ih seen r htail hseen
    · rw [show ddGo ks seen (x :: rs) =
            x :: ddGo ks (keyOf x ks :: seen) rs from by simp [ddGo, hmem]]
      rcases List.mem_cons.mp hr with heq | htail
      · exact ⟨x, List.mem_cons_self x _, by rw [heq]⟩
      · by_cases hx : keyOf r ks = keyOf x ks
        · exact ⟨x, List.mem_cons_self x _, hx.symm⟩
        · obtain ⟨q, hq, hqk⟩ := ih (keyOf x ks :: seen) r htail
            (by simp [hx, hseen])
          exact ⟨q, List.mem_cons_of_mem x hq, hqk⟩

/-- C6: for every record list and non-empty composite key, `dedupe_records`
returns the subsequence keeping exactly the first occurrence of each
composite key in original order (so the first-seen record's field values
survive), and every input key is represented in the output. -/
theorem c6_dedupe_records_first_occurrence (records : List (RecT α))
    (key_fields : List String) (hks : key_fields ≠ []) :
    dedupe_records records key_fields = dedupFirstSpec key_fields records
    ∧ (dedupe_records records key_fields).Sublist records
    ∧ ∀ r ∈ records, ∃ q ∈ dedupe_records records key_fields,
        keyOf q key_fields = keyOf r key_fields := by
  refine ⟨?_, ddGo_sublist key_fields records [], ?_⟩
  · rw [dedupe_records, ddGo_eq_spec key_fields records []]
    congr 1
    simp
  · intro r hr
    exact ddGo_covers key_fields records [] r hr (by simp)

/-- Witness for `c6_dedupe_records_first_occurrence`: two records share the
key `gameId = 1` with different `score` fields; the first-seen version
survives. -/
theorem c6_dedupe_records_first_occurrence_witness :
    (["gameId"] ≠ ([] : List String))
    ∧ (dedupe_records
        [[("gameId", some 1), ("score", some 10)],
         [("gameId", some 1), ("score", some 99)],
         [("gameId", some 2), ("score", some 7)]] ["gameId"] =
       [[("gameId", some (1 : Nat)), ("score", some 10)],
        [("gameId", some 2), ("score", some 7)]])
    ∧ (dedupe_records
        [[("gameId", some 1), ("score", some 10)],
         [("gameId", some 1), ("score", some 99)],
         [("gameId", some 2), ("score", some 7)]] ["gameId"] =
         dedupFirstSpec ["gameId"]
          [[("gameId", some (1 : Nat)), ("score", some 10)],
           [("gameId", some 1), ("score", some 99)],
           [("gameId", some 2), ("score", some 7)]]
       ∧ (dedupe_records
            [[("gameId", some 1), ("score", some 10)],
             [("gameId", some 1), ("score", some 99)],
             [("gameId", some 2), ("score", some 7)]] ["gameId"]).Sublist
          [[("gameId", some (1 : Nat)), ("score", some 10)],
           [("gameId", some 1), ("score", some 99)],
           [("gameId", some 2), ("score", some 7)]]
       ∧ ∀ r ∈ [[("gameId", some (1 : Nat)), ("score", some 10)],
                [("gameId", some 1), ("score", some 99)],
                [("gameId", some 2), ("score", some 7)]],
           ∃ q ∈ dedupe_records
              [[("gameId", some 1), ("score", some 10)],
               [("gameId", some 1), ("score", some 99)],
               [("gameId", some 2), ("score", some 7)]] ["gameId"],
             keyOf q ["gameId"] = keyOf r ["gameId"]) :=
  ⟨by decide, by decide,
    c6_dedupe_records_first_occurrence _ ["gameId"] (by decide)⟩

/-! ## Cross-window dedup of `fetch_by_date_ranges` (`cbb_v2/common.py`) -/

/-- A dedup key of `fetch_by_date_ranges`: either the scalar `r.get(id_field)`
(no composite key) or the tuple `tuple(r.get(k) for k in composite_key)`. -/
inductive DedupKey (α : Type) where
  | scalar (v : α)
  | tup (vs : List (Option α))
deriving DecidableEq

/-- Key computed for a record inside the dedup loop of
`fetch_by_date_ranges`; `none` exactly when `key is None` in the source,
which can only happen in the scalar case. -/
def fbKey (r : RecT α) (id_field : String) (composite_key : Option (List String)) :
    Option (DedupKey α) :=
  match composite_key with
  | some ks => some (DedupKey.tup (ks.map (rget r)))
  | none => (rget r id_field).map DedupKey.scalar

/-- The `for r in data` dedup loop of `fetch_by_date_ranges` over one
month-window response: keeps a record when its key is not `None` and not in
`seen_keys`; returns the `new_records` of the page and the grown seen set. -/
def fbPage (id_field : String) (ck : Option (List String))
    (seen : List (DedupKey α)) : List (RecT α) → List (RecT α) × List (DedupKey α)
  | [] => ([], seen)
  | r :: rs =>
    match fbKey r id_field ck with
    | none => fbPage id_field ck seen rs
    | some k =>
      if k ∈ seen then fbPage id_field ck seen rs
      else
        let t := fbPage id_field ck (k :: seen) rs
        (r :: t.1, t.2)

/-- The month-range loop of `fetch_by_date_ranges`: `out.extend(new_records)`
per window, threading `seen_keys` across windows. -/
def fbAll (id_field : String) (ck : Option (List String))
    (seen : List (DedupKey α)) : List (List (RecT α)) → List (RecT α)
  | [] => []
  | p :: ps =>
    let t := fbPage id_field ck seen p
    t.1 ++ fbAll id_field ck t.2 ps

/-- `fetch_by_date_ranges` from `cbb_v2/common.py`, applied to the parsed
list bodies of the successful monthly requests (`pages`); failed or
non-list responses are skipped by the source before this dedup runs, so
they do not appear among `pages`. -/
def fetch_by_date_ranges (pages : List (List (RecT α))) (id_field : String)
    (ck : Option (List String)) : List (RecT α) :=
  fbAll id_field ck [] pages

theorem fbPage_mem_isSome (id_field : String) (p : List (RecT α)) :
    ∀ seen r, r ∈ (fbPage id_field none seen p).1 →
      (rget r id_field).isSome = true := by
  induction p with
  | nil => intro seen r hr; simp [fbPage] at hr
  | cons x rs ih =>
    intro seen r hr
    rw [fbPage] at hr
    rcases hk : fbKey x id_field none with _ | k
    · rw [hk] at hr
      exact ih seen r hr
    · rw [hk] at hr
      dsimp only at hr
      by_cases hmem : k ∈ seen
      · rw [if_pos hmem] at hr
        exact ih seen r hr
      · rw [if_neg hmem] at hr
        rcases List.mem_cons.mp hr with heq | htail
        · subst heq
          simp only [fbKey] at hk
          cases hg : rget r id_field
          · rw [hg] at hk; cases hk
          · simp [hg]
        · exact ih (k :: seen) r htail

theorem fbAll_mem_isSome (id_field : String) (pages : List (List (RecT α))) :
    ∀ seen r, r ∈ fbAll id_field none seen pages →
      (rget r id_field).isSome = true := by
  induction pages with
  | nil => intro seen r hr; simp [fbAll] at hr
  | cons p ps ih =>
    intro seen r hr
    rw [fbAll] at hr
    rcases List.mem_append.mp hr with hp | hps
    · exact fbPage_mem_isSome id_field p seen r hp
    · exact ih _ r hps

/-- C9: when `fetch_by_date_ranges` runs without a composite key, every
record whose `id_field` is missing or null is silently excluded: the
returned list never contains a record whose dedup key is `None`. -/
theorem c9_fetch_drops_null_ids (pages : List (List (RecT α)))
    (id_field : String) (r : RecT α)
    (hr : r ∈ fetch_by_date_ranges pages id_field none) :
    (rget r id_field).isSome = true :=
  fbAll_mem_isSome id_field pages [] r hr

/-- Witness for `c9_fetch_drops_null_ids`: a fetched page holding a record
with a null `id` and one with `id = 7`; the theorem applies to the
surviving record, and the null-id record is indeed dropped. -/
theorem c9_fetch_drops_null_ids_witness :
    (rget [("id", some (7 : Nat))] "id").isSome = true
    ∧ fetch_by_date_ranges
        [[[("id", (none : Option Nat)), ("score", some 3)],
          [("id", some 7)]]] "id" none = [[("id", some 7)]] :=
  ⟨c9_fetch_drops_null_ids
      [[[("id", (none : Option Nat)), ("score", some 3)], [("id", some 7)]]]
      "id" [("id", some 7)] (by decide),
   by decide⟩

/-! ## Retry loop of `fetch_with_retry` (`incremental/_common.py`) -/

/-- `RETRY_DELAY` (seconds) from `incremental/_common.py`. -/
def RETRY_DELAY : Nat := 2

/-- `MAX_RETRIES` from `incremental/_common.py`. -/
def MAX_RETRIES : Nat := 3

/-- Outcome of one HTTP request attempt, as classified by the
`try/except` and status-code branches of `fetch_with_retry`. -/
inductive ApiOutcome (α : Type) where
  | ok (records : List (RecT α))
  | okNotList
  | rateLimited
  | httpError (code : Nat)
  | timedOut
  | connError
deriving DecidableEq

/-- The `for attempt in range(1, max_retries + 1)` loop of
`fetch_with_retry`.  `attempt` is the 1-based loop counter and `fuel` the
number of loop iterations still available; each iteration consumes the next
element of `schedule` (the outcome the network returns for that request).
Returns the `(records, success_flag)` result together with the list of
`time.sleep` durations performed: a 429 sleeps `RETRY_DELAY * 2 ** attempt`
and continues, a timeout or connection error sleeps `RETRY_DELAY` and
continues, any other branch returns immediately; an exhausted loop returns
`([], false)`. -/
def fetchAttempts : Nat → Nat → List (ApiOutcome α) → (List (RecT α) × Bool) × List Nat
  | _, 0, _ => (([], false), [])
  | _, _ + 1, [] => (([], false), [])
  | attempt, fuel + 1, o :: rest =>
    match o with
    | .ok records => ((records, true), [])
    | .okNotList => (([], false), [])
    | .rateLimited =>
      let r := fetchAttempts (attempt + 1) fuel rest
      (r.1, RETRY_DELAY * 2 ^ attempt :: r.2)
    | .httpError _ => (([], false), [])
    | .timedOut =>
      let r := fetchAttempts (attempt + 1) fuel rest
      (r.1, RETRY_DELAY :: r.2)
    | .connError =>
      let r := fetchAttempts (attempt + 1) fuel rest
      (r.1, RETRY_DELAY :: r.2)

/-- `fetch_with_retry(url, headers, params, max_retries)`: the loop starts
at `attempt = 1` with `max_retries` iterations available. -/
def fetch_with_retry (max_retries : Nat) (schedule : List (ApiOutcome α)) :
    (List (RecT α) × Bool) × List Nat :=
  fetchAttempts 1 max_retries schedule

/-- The retry policy described by the spec sentence under test, as its own
definition: rate-limit retries draw on a budget `rl_budget` that is
tracked separately from the transient-failure attempt budget `max_retries`,
so a 429 does not consume a transient attempt. -/
def fetchSpecSeparate : Nat → Nat → Nat → List (ApiOutcome α) → (List (RecT α) × Bool) × List Nat
  | _, 0, _, _ => (([], false), [])
  | _, _ + 1, _, [] => (([], false), [])
  | attempt, fuel + 1, rl_budget, o :: rest =>
    match o with
    | .ok records => ((records, true), [])
    | .okNotList => (([], false), [])
    | .rateLimited =>
      match rl_budget with
      | 0 => (([], false), [])
      | rl + 1 =>
        let r := fetchSpecSeparate (attempt + 1) (fuel + 1) rl rest
        (r.1, RETRY_DELAY * 2 ^ attempt :: r.2)
    | .httpError _ => (([], false), [])
    | .timedOut =>
      let r := fetchSpecSeparate (attempt + 1) fuel rl_budget rest
      (r.1, RETRY_DELAY :: r.2)
    | .connError =>
      let r := fetchSpecSeparate (attempt + 1) fuel rl_budget rest
      (r.1, RETRY_DELAY :: r.2)

theorem fetchAttempts_take (fuel : Nat) :
    ∀ (attempt : Nat) (schedule : List (ApiOutcome α)),
      fetchAttempts attempt fuel schedule =
        fetchAttempts attempt fuel (schedule.take fuel) := by
  induction fuel with
  | zero => intro attempt schedule; rfl
  | succ f ih =>
    intro attempt schedule
    cases schedule with
    | nil => rfl
    | cons o rest =>
      cases o with
      | ok records => rfl
      | okNotList => rfl
      | rateLimited => simp only [fetchAttempts, List.take_succ_cons]; rw [← ih]
      | httpError code => rfl
      | timedOut => simp only [fetchAttempts, List.take_succ_cons]; rw [← ih]
      | connError => simp only [fetchAttempts, List.take_succ_cons]; rw [← ih]

/-- C5, the claim as stated fails: with `MAX_RETRIES = 3`, the schedule
timeout–timeout–success succeeds, but prepending a single rate-limited
response makes the identical run fail — the 429 retry consumed one of the
three shared attempts, so rate-limit retries are *not* tracked separately
from the transient-failure budget.  A separate-budget policy
(`fetchSpecSeparate`, written from the spec's words) succeeds on the same
schedule. -/
theorem c5_counterexample :
    fetch_with_retry MAX_RETRIES
        [ApiOutcome.timedOut, ApiOutcome.timedOut,
         ApiOutcome.ok [[("id", some (1 : Nat))]]]
      = (([[("id", some 1)]], true), [RETRY_DELAY, RETRY_DELAY])
    ∧ fetch_with_retry MAX_RETRIES
        [ApiOutcome.rateLimited, ApiOutcome.timedOut, ApiOutcome.timedOut,
         ApiOutcome.ok [[("id", some (1 : Nat))]]]
      = (([], false), [RETRY_DELAY * 2 ^ 1, RETRY_DELAY, RETRY_DELAY])
    ∧ fetchSpecSeparate 1 MAX_RETRIES 1
        [ApiOutcome.rateLimited, ApiOutcome.timedOut, ApiOutcome.timedOut,
         ApiOutcome.ok [[("id", some (1 : Nat))]]]
      = (([[("id", some 1)]], true), [RETRY_DELAY * 2 ^ 1, RETRY_DELAY, RETRY_DELAY]) :=
  ⟨by decide, by decide, by decide⟩

/-- C5 (amended): `fetch_with_retry` retries a 429 with exponential backoff
(`RETRY_DELAY * 2 ** attempt`, doubling with the attempt number) and a
timeout or connection error with the fixed `RETRY_DELAY`, but all three
draw on the one shared `max_retries` attempt budget: each retried outcome
passes to the next attempt with the same decremented budget, and the loop
never consumes more than `max_retries` responses, rate-limited ones
included. -/
theorem c5_retry_budget_amended (attempt fuel : Nat) (rest : List (ApiOutcome α)) :
    (∀ (a f : Nat) (schedule : List (ApiOutcome α)),
        fetchAttempts a f schedule = fetchAttempts a f (schedule.take f))
    ∧ fetchAttempts attempt (fuel + 1) (ApiOutcome.rateLimited :: rest)
      = ((fetchAttempts (attempt + 1) fuel rest).1,
         RETRY_DELAY * 2 ^ attempt :: (fetchAttempts (attempt + 1) fuel rest).2)
    ∧ fetchAttempts attempt (fuel + 1) (ApiOutcome.timedOut :: rest)
      = ((fetchAttempts (attempt + 1) fuel rest).1,
         RETRY_DELAY :: (fetchAttempts (attempt + 1) fuel rest).2)
    ∧ fetchAttempts attempt 0 (ApiOutcome.rateLimited :: rest) = (([], false), []) :=
  ⟨fun a f schedule => fetchAttempts_take f a schedule, rfl, rfl, rfl⟩

/-! ## Rolling-window pull and manifest
(`incremental/cbb_rolling.py`, `incremental/_common.py`) -/

/-- Manifest dictionary built by `create_manifest` in
`incremental/_common.py`.  The `pull_timestamp` wall-clock field and the
derived `days` field are clock formatting and are not modelled. -/
structure Manifest where
  sport : String
  endpoint : String
  window_start : DateTime
  window_end : DateTime
  record_count : Nat
  success : Bool
  errors : List String
deriving DecidableEq, Repr

/-- `create_manifest(sport, endpoint, start_date, end_date, record_count,
success, errors)`. -/
def create_manifest (sport endpoint : String) (start_date end_date : DateTime)
    (record_count : Nat) (success : Bool) (errors : List String) : Manifest :=
  ⟨sport, endpoint, start_date, end_date, record_count, success, errors⟩

/-- `_get_cbb_season(dt)` from `incremental/cbb_rolling.py`: the CBB season
a date belongs to (August onwards counts toward the next year's season). -/
def _get_cbb_season (dt : DateTime) : Nat :=
  if 8 ≤ dt.month then dt.year + 1 else dt.year

/-- The seasons `range(start_season, end_season + 1)` iterated by
`_fetch_cbb_by_date_range`. -/
def seasonsOf (start_date end_date : DateTime) : List Nat :=
  List.range' (_get_cbb_season start_date)
    (_get_cbb_season end_date + 1 - _get_cbb_season start_date)

/-- The season loop of `_fetch_cbb_by_date_range`: `respond s` is the
`(records, success)` pair `fetch_with_retry` returns for season `s`; a
success extends `all_records`, a failure appends
`"Failed to fetch season s"` to `errors`. -/
def fetchSeasons (respond : Nat → List (RecT α) × Bool) :
    List Nat → List (RecT α) × List String
  | [] => ([], [])
  | s :: rest =>
    let r := fetchSeasons respond rest
    if (respond s).2 then ((respond s).1 ++ r.1, r.2)
    else (r.1, ("Failed to fetch season " ++ toString s) :: r.2)

/-- `_fetch_cbb_by_date_range(endpoint, start_date, end_date)`: fetch every
overlapping season, collecting records of succeeded fetches and error
strings of failed ones. -/
def _fetch_cbb_by_date_range (respond : Nat → List (RecT α) × Bool)
    (start_date end_date : DateTime) : List (RecT α) × List String :=
  fetchSeasons respond (seasonsOf start_date end_date)

/-- `pull_cbb_games(days)` from `incremental/cbb_rolling.py`, from the point
where the date window is fixed: fetch, dedupe by `id`, and build the
manifest via `create_manifest` with `record_count = len(records)` and
`success = len(errors) == 0`.  The local-file save and S3 upload consume
the manifest but do not change it. -/
def pull_cbb_games (respond : Nat → List (RecT α) × Bool)
    (start_date end_date : DateTime) : Manifest :=
  let fetched := _fetch_cbb_by_date_range respond start_date end_date
  let records := dedupe_records fetched.1 ["id"]
  create_manifest "cbb" "games" start_date end_date records.length
    fetched.2.isEmpty fetched.2

/-- Spec-side description of "the records obtained from the succeeded
windows only": concatenate, in season order, the responses of exactly the
seasons whose fetch succeeded. -/
def succeededRecords (respond : Nat → List (RecT α) × Bool)
    (seasons : List Nat) : List (RecT α) :=
  (seasons.filter (fun s => (respond s).2)).flatMap (fun s => (respond s).1)

theorem fetchSeasons_characterisation (respond : Nat → List (RecT α) × Bool) :
    ∀ seasons : List Nat,
      (fetchSeasons respond seasons).1 = succeededRecords respond seasons
      ∧ (fetchSeasons respond seasons).2 =
          (seasons.filter (fun s => !(respond s).2)).map
            (fun s => "Failed to fetch season " ++ toString s) := by
  intro seasons
  induction seasons with
  | nil => exact ⟨rfl, rfl⟩
  | cons s rest ih =>
    by_cases hs : (respond s).2
    · refine ⟨?_, ?_⟩
      · rw [show (fetchSeasons respond (s :: rest)).1 =
              (respond s).1 ++ (fetchSeasons respond rest).1 from by
            simp [fetchSeasons, hs]]
        rw [ih.1]
        simp [succeededRecords, hs]
      · rw [show (fetchSeasons respond (s :: rest)).2 =
              (fetchSeasons respond rest).2 from by simp [fetchSeasons, hs]]
        rw [ih.2]
        simp [hs]
    · refine ⟨?_, ?_⟩
      · rw [show (fetchSeasons respond (s :: rest)).1 =
              (fetchSeasons respond rest).1 from by simp [fetchSeasons, hs]]
        rw [ih.1]
        simp [succeededRecords, hs]
      · rw [show (fetchSeasons respond (s :: rest)).2 =
              ("Failed to fetch season " ++ toString s) ::
                (fetchSeasons respond rest).2 from by simp [fetchSeasons, hs]]
        rw [ih.2]
        simp [hs]

/-- C7: if any season-window fetch of a `pull_cbb_games` run fails, the
manifest has `success = false`, carries an error entry naming the failed
window, and its `record_count` counts exactly the deduplicated records of
the succeeded windows only. -/
theorem c7_manifest_reflects_failures (respond : Nat → List (RecT α) × Bool)
    (start_date end_date : DateTime) (s : Nat)
    (hs : s ∈ seasonsOf start_date end_date) (hfail : (respond s).2 = false) :
    (pull_cbb_games respond start_date end_date).success = false
    ∧ ("Failed to fetch season " ++ toString s) ∈
        (pull_cbb_games respond start_date end_date).errors
    ∧ (pull_cbb_games respond start_date end_date).record_count =
        (dedupe_records
          (succeededRecords respond (seasonsOf start_date end_date))
          ["id"]).length := by
  have hchar := fetchSeasons_characterisation respond (seasonsOf start_date end_date)
  have herrmem : ("Failed to fetch season " ++ toString s) ∈
      (fetchSeasons respond (seasonsOf start_date end_date)).2 := by
    rw [hchar.2]
    exact List.mem_map_of_mem _ (List.mem_filter.mpr ⟨hs, by simp [hfail]⟩)
  refine ⟨?_, herrmem, ?_⟩
  · show (fetchSeasons respond (seasonsOf start_date end_date)).2.isEmpty = false
    cases h : (fetchSeasons respond (seasonsOf start_date end_date)).2 with
    | nil => rw [h] at herrmem; cases herrmem
    | cons e es => rfl
  · show (dedupe_records (fetchSeasons respond (seasonsOf start_date end_date)).1
        ["id"]).length = _
    rw [hchar.1]

/-- Witness for `c7_manifest_reflects_failures`: a two-season window
(July 30 – August 2, 2025, spanning seasons 2025 and 2026) where season
2026 fails and season 2025 returns one game. -/
theorem c7_manifest_reflects_failures_witness :
    (2026 ∈ seasonsOf ⟨2025, 7, 30, 0, 0, 0⟩ ⟨2025, 8, 2, 0, 0, 0⟩)
    ∧ ((pull_cbb_games
          (fun s => if s = 2025 then ([[("id", some (1 : Nat))]], true) else ([], false))
          ⟨2025, 7, 30, 0, 0, 0⟩ ⟨2025, 8, 2, 0, 0, 0⟩).success = false
      ∧ ("Failed to fetch season " ++ toString 2026) ∈
          (pull_cbb_games
            (fun s => if s = 2025 then ([[("id", some (1 : Nat))]], true) else ([], false))
            ⟨2025, 7, 30, 0, 0, 0⟩ ⟨2025, 8, 2, 0, 0, 0⟩).errors
      ∧ (pull_cbb_games
          (fun s => if s = 2025 then ([[("id", some (1 : Nat))]], true) else ([], false))
          ⟨2025, 7, 30, 0, 0, 0⟩ ⟨2025, 8, 2, 0, 0, 0⟩).record_count =
          (dedupe_records
            (succeededRecords
              (fun s => if s = 2025 then ([[("id", some (1 : Nat))]], true) else ([], false))
              (seasonsOf ⟨2025, 7, 30, 0, 0, 0⟩ ⟨2025, 8, 2, 0, 0, 0⟩))
            ["id"]).length) :=
  ⟨by decide,
   c7_manifest_reflects_failures
     (fun s => if s = 2025 then ([[("id", some (1 : Nat))]], true) else ([], false))
     ⟨2025, 7, 30, 0, 0, 0⟩ ⟨2025, 8, 2, 0, 0, 0⟩ 2026 (by decide) (by decide)⟩

/-! ## Upsert merge (`cbb_v2/common.py` `upsert_dataframe`,
`cbb/load_cdc_to_postgres.py` `upsert_table`) -/

/-- A table row split by the primary key: `key` is the tuple of
primary-key columns, `data` the tuple of the remaining columns.  Both
`upsert_dataframe` and `upsert_table` issue
`INSERT ... ON CONFLICT (pk) DO UPDATE SET c = EXCLUDED.c` over exactly
this split (`update_cols` / `non_pk_cols` are the columns outside
`primary_keys` / `pk_cols`). -/
structure DbRow (K D : Type) where
  key : K
  data : D
deriving DecidableEq, Repr

variable {K D : Type} [DecidableEq K] [DecidableEq D]

/-- Effect of one `VALUES` row of the upsert statement on the table:
on a primary-key conflict the existing row's non-key columns are
overwritten with the incoming (`EXCLUDED`) values; otherwise the row is
inserted.  Postgres evaluates the batch row by row in order. -/
def upsertRow (t : List (DbRow K D)) (r : DbRow K D) : List (DbRow K D) :=
  if t.any (fun q => decide (q.key = r.key)) then
    t.map (fun q => if q.key = r.key then ⟨q.key, r.data⟩ else q)
  else t ++ [r]

/-- `upsert_dataframe(engine, df, ...)` /
`upsert_table(name, data_dir, conn)`: the staged batch is merged into the
persistent table through the `ON CONFLICT DO UPDATE` statement, row by row
in batch order. -/
def upsert_dataframe (t : List (DbRow K D)) (batch : List (DbRow K D)) :
    List (DbRow K D) :=
  batch.foldl upsertRow t

theorem upsertRow_key_preserved (r q : DbRow K D) :
    ((if q.key = r.key then (⟨q.key, r.data⟩ : DbRow K D) else q)).key = q.key := by
  by_cases h : q.key = r.key <;> simp [h]

theorem upsertRow_establishes (t : List (DbRow K D)) (r : DbRow K D) :
    (∀ q ∈ upsertRow t r, q.key = r.key → q.data = r.data)
    ∧ (∃ q ∈ upsertRow t r, q.key = r.key) := by
  unfold upsertRow
  by_cases hany : t.any (fun q => decide (q.key = r.key)) = true
  · rw [if_pos hany]
    constructor
    · intro q hq hqk
      obtain ⟨p, hp, hpe⟩ := List.mem_map.mp hq
      by_cases h : p.key = r.key
      · rw [← hpe]; simp [h]
      · rw [← hpe] at hqk ⊢; simp [h] at hqk
    · obtain ⟨p, hp, hpk⟩ := List.any_eq_true.mp hany
      refine ⟨if p.key = r.key then ⟨p.key, r.data⟩ else p,
        List.mem_map_of_mem _ hp, ?_⟩
      rw [upsertRow_key_preserved]
      exact of_decide_eq_true hpk
  · rw [if_neg hany]
    constructor
    · intro q hq hqk
      rcases List.mem_append.mp hq with hqt | hqr
      · exfalso
        exact hany (List.any_eq_true.mpr ⟨q, hqt, decide_eq_true hqk⟩)
      · rw [List.mem_singleton.mp hqr]
    · exact ⟨r, List.mem_append.mpr (Or.inr (List.mem_singleton.mpr rfl)), rfl⟩

theorem upsertRow_preserves (t : List (DbRow K D)) (r : DbRow K D) (k : K) (d : D)
    (hk : ¬ k = r.key) :
    ((∀ q ∈ t, q.key = k → q.data = d) →
      ∀ q ∈ upsertRow t r, q.key = k → q.data = d)
    ∧ ((∃ q ∈ t, q.key = k) → ∃ q ∈ upsertRow t r, q.key = k) := by
  unfold upsertRow
  by_cases hany : t.any (fun q => decide (q.key = r.key)) = true
  · rw [if_pos hany]
    constructor
    · intro hall q hq hqk
      obtain ⟨p, hp, hpe⟩ := List.mem_map.mp hq
      by_cases h : p.key = r.key
      · rw [← hpe] at hqk; simp [h] at hqk; exact absurd hqk.symm hk
      · rw [← hpe] at hqk ⊢; simp [h] at hqk ⊢; exact hall p hp hqk
    · intro ⟨q, hq, hqk⟩
      refine ⟨if q.key = r.key then ⟨q.key, r.data⟩ else q,
        List.mem_map_of_mem _ hq, ?_⟩
      rw [upsertRow_key_preserved]; exact hqk
  · rw [if_neg hany]
    constructor
    · intro hall q hq hqk
      rcases List.mem_append.mp hq with hqt | hqr
      · exact hall q hqt hqk
      · rw [List.mem_singleton.mp hqr] at hqk; exact absurd hqk.symm hk
    · intro ⟨q, hq, hqk⟩
      exact ⟨q, List.mem_append.mpr (Or.inl hq), hqk⟩

theorem upsert_fold_preserves (batch : List (DbRow K D)) (k : K) (d : D)
    (hk : ∀ r ∈ batch, ¬ k = r.key) :
    ∀ t, ((∀ q ∈ t, q.key = k → q.data = d) ∧ (∃ q ∈ t, q.key = k)) →
      (∀ q ∈ upsert_dataframe t batch, q.key = k → q.data = d)
      ∧ (∃ q ∈ upsert_dataframe t batch, q.key = k) := by
  induction batch with
  | nil => intro t h; exact h
  | cons x xs ih =>
    intro t h
    have hx := hk x (List.mem_cons_self x xs)
    have hstep := upsertRow_preserves t x k d hx
    exact ih (fun r hr => hk r (List.mem_cons_of_mem x hr)) (upsertRow t x)
      ⟨hstep.1 h.1, hstep.2 h.2⟩

theorem upsert_key_data (batch : List (DbRow K D))
    (hb : batch.Pairwise (fun a b => ¬ a.key = b.key)) (r : DbRow K D)
    (hr : r ∈ batch) :
    ∀ t, (∀ q ∈ upsert_dataframe t batch, q.key = r.key → q.data = r.data)
      ∧ (∃ q ∈ upsert_dataframe t batch, q.key = r.key) := by
  induction batch with
  | nil => cases hr
  | cons x xs ih =>
    intro t
    obtain ⟨hx, hxs⟩ := List.pairwise_cons.mp hb
    rcases List.mem_cons.mp hr with heq | htail
    · subst heq
      have hinit := upsertRow_establishes t r
      exact upsert_fold_preserves xs r.key r.data hx (upsertRow t r) hinit
    · exact ih hxs htail (upsertRow t x)

theorem upsertRow_noop (t : List (DbRow K D)) (r : DbRow K D)
    (hpres : ∃ q ∈ t, q.key = r.key)
    (hdat : ∀ q ∈ t, q.key = r.key → q.data = r.data) :
    upsertRow t r = t := by
  obtain ⟨p, hp, hpk⟩ := hpres
  unfold upsertRow
  rw [if_pos (List.any_eq_true.mpr ⟨p, hp, decide_eq_true hpk⟩)]
  have hid : ∀ q ∈ t, (if q.key = r.key then (⟨q.key, r.data⟩ : DbRow K D) else q) = q := by
    intro q hq
    by_cases h : q.key = r.key
    · obtain ⟨qk, qd⟩ := q
      simp only [if_pos h]
      have := hdat ⟨qk, qd⟩ hq h
      simp_all
    · simp [h]
  calc t.map (fun q => if q.key = r.key then (⟨q.key, r.data⟩ : DbRow K D) else q)
      = t.map id := List.map_congr_left hid
    _ = t := List.map_id t

theorem upsert_fold_const (batch : List (DbRow K D)) (T : List (DbRow K D))
    (h : ∀ r ∈ batch, upsertRow T r = T) : upsert_dataframe T batch = T := by
  induction batch with
  | nil => rfl
  | cons x xs ih =>
    unfold upsert_dataframe at ih ⊢
    rw [List.foldl_cons, h x (List.mem_cons_self x xs)]
    exact ih (fun r hr => h r (List.mem_cons_of_mem x hr))

theorem upsert_second_pass (t batch : List (DbRow K D))
    (hb : batch.Pairwise (fun a b => ¬ a.key = b.key)) :
    upsert_dataframe (upsert_dataframe t batch) batch = upsert_dataframe t batch := by
  apply upsert_fold_const
  intro r hr
  have hkd := upsert_key_data batch hb r hr t
  exact upsertRow_noop _ r
    (by obtain ⟨q, hq, hqk⟩ := hkd.2; exact ⟨q, hq, hqk⟩) hkd.1

/-- C3: for a staging batch with pairwise-distinct natural keys, replaying
the upsert merge N ≥ 1 times leaves the persistent table exactly as one
application does, and every row whose key conflicts with a batch record
carries that record's non-key values (latest write wins). -/
theorem c3_upsert_idempotent (t batch : List (DbRow K D))
    (hb : batch.Pairwise (fun a b => ¬ a.key = b.key)) (n : Nat) (hn : 1 ≤ n) :
    (fun s => upsert_dataframe s batch)^[n] t = upsert_dataframe t batch
    ∧ ∀ r ∈ batch, ∀ q ∈ upsert_dataframe t batch,
        q.key = r.key → q.data = r.data := by
  constructor
  · induction n, hn using Nat.le_induction with
    | base => rw [Function.iterate_one]
    | succ m hm ihm =>
      rw [Function.iterate_succ_apply', ihm]
      exact upsert_second_pass t batch hb
  · intro r hr
    exact (upsert_key_data batch hb r hr t).1

/-- Witness for `c3_upsert_idempotent`: a table holding keys 1 and 3, a
batch updating key 1 and inserting key 2, replayed three times. -/
theorem c3_upsert_idempotent_witness :
    (([⟨1, 99⟩, ⟨2, 5⟩] : List (DbRow Nat Nat)).Pairwise
        (fun a b => ¬ a.key = b.key) ∧ 1 ≤ 3)
    ∧ ((fun s => upsert_dataframe s [⟨1, 99⟩, ⟨2, 5⟩])^[3]
          ([⟨1, 10⟩, ⟨3, 30⟩] : List (DbRow Nat Nat)) =
        upsert_dataframe [⟨1, 10⟩, ⟨3, 30⟩] [⟨1, 99⟩, ⟨2, 5⟩]
      ∧ ∀ r ∈ ([⟨1, 99⟩, ⟨2, 5⟩] : List (DbRow Nat Nat)),
          ∀ q ∈ upsert_dataframe [⟨1, 10⟩, ⟨3, 30⟩] [⟨1, 99⟩, ⟨2, 5⟩],
            q.key = r.key → q.data = r.data) :=
  ⟨⟨by decide, by decide⟩,
   c3_upsert_idempotent [⟨1, 10⟩, ⟨3, 30⟩] [⟨1, 99⟩, ⟨2, 5⟩] (by decide) 3 (by decide)⟩

/-! ## Scheduled full refresh (`dags/daily_full_refresh.py`)

The database is a map from table name to row list.  `load_rows_to_table`,
`count_rows` and `swap_stage_to_raw` are imported from `src.db.postgres`,
which is not part of the repository tree; they are modelled from the spec
below.  The Airflow `TriggerRule.ALL_SUCCESS` on `finalize_all` is modelled
by running the finalize step exactly when every validation task
succeeded. -/

/-- The `Asset` dataclass of `dags/daily_full_refresh.py`. -/
structure Asset where
  name : String
  python_callable : String
  target_table : String
  staging_table : String
deriving DecidableEq, Repr

/-- Overwrite one table of the database state. -/
def dbUpd (db : String → List α) (t : String) (rows : List α) :
    String → List α :=
  fun s => if s = t then rows else db s

/-- The `extract_and_load_stage` task for one asset: the extractor's rows
are landed in the staging table and the task returns
`stage_count = count_rows(staging_table)`, the post-load staging count
(not `len(rows_list)`).  `land` models `load_rows_to_table`.
Modelled from the spec: `load_rows_to_table` clears the staging scope and
writes the extracted rows; to analyse the Validator the landed content is
kept an arbitrary function of the extracted rows, so that the landing
defects §4.4 of the spec exists to catch are representable (a correct
loader is `land = fun rows => rows`). -/
def extract_and_load_stage (db : String → List α) (a : Asset)
    (rows : List α) (land : List α → List α) : (String → List α) × Nat :=
  let db1 := dbUpd db a.staging_table (land rows)
  (db1, (db1 a.staging_table).length)

/-- The per-asset task groups of the DAG: each asset's extractor is loaded
by `python_callable` and may raise (`none`), in which case the asset's
pipeline fails and later tasks of that group are skipped.  Returns the
database after all load tasks together with each asset's reported
staging count (`none` when the extract task failed). -/
def stagePhase (extractor : String → Option (List α))
    (land : String → List α → List α) :
    (String → List α) → List Asset → (String → List α) × List (Asset × Option Nat)
  | db, [] => (db, [])
  | db, a :: rest =>
    match extractor a.python_callable with
    | none =>
      let r := stagePhase extractor land db rest
      (r.1, (a, none) :: r.2)
    | some rows =>
      let s := extract_and_load_stage db a rows (land a.staging_table)
      let r := stagePhase extractor land s.1 rest
      (r.1, (a, some s.2) :: r.2)

/-- The `validate_stage` task: re-counts the staging table and raises
`ValueError` (here: `false`) when the fresh count differs from
`upstream_row_count`.  `recount` is the count the fresh `count_rows` read
returns at validation time — the staging tables are shared database state
that other processes may touch between the two tasks; on a quiescent
database `recount` returns the landed row count.  An asset whose extract
task failed (`none`) never validates successfully. -/
def validate_stage (recount : String → Nat) (a : Asset)
    (upstream : Option Nat) : Bool :=
  match upstream with
  | none => false
  | some n => recount a.staging_table == n

/-- The `finalize_all` task: for each asset in order,
`swap_stage_to_raw(raw_table, staging_table)`.  Modelled from the spec:
the swap replaces the raw table's content with the staged content. -/
def finalize_all (db : String → List α) (assets : List Asset) :
    String → List α :=
  assets.foldl (fun d a => dbUpd d a.target_table (d a.staging_table)) db

/-- One scheduled run of the `daily_full_refresh` DAG: stage every asset,
validate every asset, and — `TriggerRule.ALL_SUCCESS` — run `finalize_all`
only when every validation task succeeded. -/
def daily_full_refresh (db : String → List α) (assets : List Asset)
    (extractor : String → Option (List α)) (land : String → List α → List α)
    (recount : String → Nat) : String → List α :=
  let sp := stagePhase extractor land db assets
  if sp.2.all (fun p => validate_stage recount p.1 p.2) then finalize_all sp.1 assets
  else sp.1

theorem stagePhase_preserves (extractor : String → Option (List α))
    (land : String → List α → List α) (assets : List Asset) :
    ∀ (db : String → List α) (t : String), (∀ a ∈ assets, ¬ t = a.staging_table) →
      (stagePhase extractor land db assets).1 t = db t := by
  induction assets with
  | nil => intro db t _; rfl
  | cons a rest ih =>
    intro db t ht
    have hta := ht a (List.mem_cons_self a rest)
    have htr : ∀ b ∈ rest, ¬ t = b.staging_table :=
      fun b hb => ht b (List.mem_cons_of_mem a hb)
    cases hx : extractor a.python_callable with
    | none =>
      show (stagePhase extractor land db (a :: rest)).1 t = db t
      simp only [stagePhase, hx]
      exact ih db t htr
    | some rows =>
      show (stagePhase extractor land db (a :: rest)).1 t = db t
      simp only [stagePhase, hx]
      rw [ih _ t htr]
      simp [extract_and_load_stage, dbUpd, hta]

theorem gate_false_of_fail (recount : String → Nat)
    (reports : List (Asset × Option Nat)) (p : Asset × Option Nat)
    (hp : p ∈ reports) (hpf : validate_stage recount p.1 p.2 = false) :
    reports.all (fun q => validate_stage recount q.1 q.2) = false := by
  cases hall : reports.all (fun q => validate_stage recount q.1 q.2) with
  | false => rfl
  | true =>
    have := List.all_eq_true.mp hall p hp
    rw [hpf] at this
    cases this

theorem run_preserves_targets_of_gate_false (db : String → List α)
    (assets : List Asset) (extractor : String → Option (List α))
    (land : String → List α → List α) (recount : String → Nat)
    (hgate : (stagePhase extractor land db assets).2.all
        (fun p => validate_stage recount p.1 p.2) = false)
    (hdisj : ∀ a ∈ assets, ∀ b ∈ assets, ¬ a.target_table = b.staging_table) :
    ∀ a ∈ assets,
      daily_full_refresh db assets extractor land recount a.target_table =
        db a.target_table := by
  intro a ha
  unfold daily_full_refresh
  simp only [hgate, Bool.false_eq_true, if_false]
  exact stagePhase_preserves extractor land assets db a.target_table (hdisj a ha)

/-- C1: in the scheduled full-refresh DAG, if any asset's validation fails
then the stage-to-raw promotion runs for no asset: every raw (target)
table after the run equals its content before the run. -/
theorem c1_swap_all_or_nothing (db : String → List α) (assets : List Asset)
    (extractor : String → Option (List α)) (land : String → List α → List α)
    (recount : String → Nat)
    (hfail : ∃ p ∈ (stagePhase extractor land db assets).2,
        validate_stage recount p.1 p.2 = false)
    (hdisj : ∀ a ∈ assets, ∀ b ∈ assets, ¬ a.target_table = b.staging_table) :
    ∀ a ∈ assets,
      daily_full_refresh db assets extractor land recount a.target_table =
        db a.target_table := by
  obtain ⟨p, hp, hpf⟩ := hfail
  exact run_preserves_targets_of_gate_false db assets extractor land recount
    (gate_false_of_fail recount _ p hp hpf) hdisj

/-- Witness for `c1_swap_all_or_nothing`: two assets; the games pipeline
stages and validates cleanly but the teams staging count read at
validation time (99) differs from the reported count (1), so neither raw
table changes. -/
theorem c1_swap_all_or_nothing_witness :
    (∃ p ∈ (stagePhase
        (fun c => if c = "ext.games" then some [1, 2] else some ([5] : List Nat))
        (fun _ rows => rows)
        (fun _ => ([] : List Nat))
        [⟨"games", "ext.games", "raw_games", "stg_games"⟩,
         ⟨"teams", "ext.teams", "raw_teams", "stg_teams"⟩]).2,
      validate_stage (fun t => if t = "stg_games" then 2 else 99) p.1 p.2 = false)
    ∧ (∀ a ∈ [(⟨"games", "ext.games", "raw_games", "stg_games"⟩ : Asset),
              ⟨"teams", "ext.teams", "raw_teams", "stg_teams"⟩],
        daily_full_refresh (fun _ => ([] : List Nat))
          [⟨"games", "ext.games", "raw_games", "stg_games"⟩,
           ⟨"teams", "ext.teams", "raw_teams", "stg_teams"⟩]
          (fun c => if c = "ext.games" then some [1, 2] else some [5])
          (fun _ rows => rows)
          (fun t => if t = "stg_games" then 2 else 99) a.target_table =
        (fun _ => ([] : List Nat)) a.target_table) :=
  ⟨by decide,
   c1_swap_all_or_nothing (fun _ => ([] : List Nat))
     [⟨"games", "ext.games", "raw_games", "stg_games"⟩,
      ⟨"teams", "ext.teams", "raw_teams", "stg_teams"⟩]
     (fun c => if c = "ext.games" then some [1, 2] else some [5])
     (fun _ rows => rows)
     (fun t => if t = "stg_games" then 2 else 99)
     (by decide) (by decide)⟩

/-- C4, the claim as stated fails: the extract task returns the post-load
staging count, not the extracted row count, so a landing that drops rows
goes unnoticed.  Here the extractor yields 2 rows, the landing stages only
1, validation still passes (1 = 1) and the finalize swap runs — no hard
failure despite extracted ≠ staged. -/
theorem c4_counterexample :
    ([1, 2] : List Nat).length = 2
    ∧ (stagePhase (fun _ => some ([1, 2] : List Nat))
        (fun _ rows => rows.take 1) (fun _ => [])
        [⟨"games", "ext.games", "raw_games", "stg_games"⟩]).1 "stg_games" = [1]
    ∧ (stagePhase (fun _ => some ([1, 2] : List Nat))
        (fun _ rows => rows.take 1) (fun _ => [])
        [⟨"games", "ext.games", "raw_games", "stg_games"⟩]).2 =
        [(⟨"games", "ext.games", "raw_games", "stg_games"⟩, some 1)]
    ∧ ((stagePhase (fun _ => some ([1, 2] : List Nat))
        (fun _ rows => rows.take 1) (fun _ => [])
        [⟨"games", "ext.games", "raw_games", "stg_games"⟩]).2.all
          (fun p => validate_stage (fun _ => 1) p.1 p.2) = true)
    ∧ daily_full_refresh (fun _ => ([] : List Nat))
        [⟨"games", "ext.games", "raw_games", "stg_games"⟩]
        (fun _ => some [1, 2]) (fun _ rows => rows.take 1) (fun _ => 1)
        "raw_games" = [1] :=
  ⟨by decide, by decide, by decide, by decide, by decide⟩

/-- C4 (amended): `validate_stage` compares the staging count reported by
the extract task — itself a post-load count of the staging table, not the
extracted row count — with a fresh staging count taken at validation time;
exactly a mismatch between those two raises `ValueError`, and such a hard
failure blocks the finalize swap for every asset of the batch. -/
theorem c4_validate_compares_staging_counts (db : String → List α)
    (assets : List Asset) (extractor : String → Option (List α))
    (land : String → List α → List α) (recount : String → Nat)
    (a : Asset) (n : Nat)
    (hmem : (a, some n) ∈ (stagePhase extractor land db assets).2)
    (hne : ¬ recount a.staging_table = n)
    (hdisj : ∀ x ∈ assets, ∀ b ∈ assets, ¬ x.target_table = b.staging_table) :
    (∀ m : Nat, validate_stage recount a (some m) = true ↔
        recount a.staging_table = m)
    ∧ validate_stage recount a (some n) = false
    ∧ ∀ x ∈ assets,
        daily_full_refresh db assets extractor land recount x.target_table =
          db x.target_table := by
  have hiff : ∀ m : Nat, validate_stage recount a (some m) = true ↔
      recount a.staging_table = m := by
    intro m
    simp [validate_stage]
  have hval : validate_stage recount a (some n) = false := by
    cases hv : validate_stage recount a (some n) with
    | false => rfl
    | true => exact absurd ((hiff n).mp hv) hne
  exact ⟨hiff, hval,
    run_preserves_targets_of_gate_false db assets extractor land recount
      (gate_false_of_fail recount _ (a, some n) hmem hval) hdisj⟩

/-- Witness for `c4_validate_compares_staging_counts`: one asset stages two
rows but the validation-time count read returns 5. -/
theorem c4_validate_compares_staging_counts_witness :
    ((⟨"games", "ext.games", "raw_games", "stg_games"⟩, some 2) ∈
        (stagePhase (fun _ => some ([1, 2] : List Nat)) (fun _ rows => rows)
          (fun _ => []) [⟨"games", "ext.games", "raw_games", "stg_games"⟩]).2
      ∧ ¬ (fun _ => (5 : Nat)) "stg_games" = 2)
    ∧ ((∀ m : Nat, validate_stage (fun _ => 5)
          ⟨"games", "ext.games", "raw_games", "stg_games"⟩ (some m) = true ↔
          (fun _ => (5 : Nat)) "stg_games" = m)
      ∧ validate_stage (fun _ => 5)
          ⟨"games", "ext.games", "raw_games", "stg_games"⟩ (some 2) = false
      ∧ ∀ x ∈ [(⟨"games", "ext.games", "raw_games", "stg_games"⟩ : Asset)],
          daily_full_refresh (fun _ => ([] : List Nat))
            [⟨"games", "ext.games", "raw_games", "stg_games"⟩]
            (fun _ => some [1, 2]) (fun _ rows => rows) (fun _ => 5)
            x.target_table = (fun _ => ([] : List Nat)) x.target_table) :=
  ⟨⟨by decide, by decide⟩,
   c4_validate_compares_staging_counts (fun _ => ([] : List Nat))
     [⟨"games", "ext.games", "raw_games", "stg_games"⟩]
     (fun _ => some [1, 2]) (fun _ rows => rows) (fun _ => 5)
     ⟨"games", "ext.games", "raw_games", "stg_games"⟩ 2
     (by decide) (by decide) (by decide)⟩

/-! ## Orchestrator (`cbb_v2/run_ingest.py`) -/

/-- One dataset's entry of the run summary: its `status` value plus the
captured exception message when the loader raised. -/
structure DsResult where
  status : String
  error : Option String
deriving DecidableEq, Repr

/-- `DATASET_ORDER` from `cbb_v2/run_ingest.py`. -/
def DATASET_ORDER : List String :=
  ["teams", "venues", "games", "team_game_stats", "lines",
   "team_season_stats", "player_season_stats", "game_players"]

/-- `load_datasets`: all of `DATASET_ORDER` when no selection is given,
otherwise `[d for d in DATASET_ORDER if d in datasets]`. -/
def load_datasets (datasets : Option (List String)) : List String :=
  match datasets with
  | none => DATASET_ORDER
  | some ds => DATASET_ORDER.filter (fun d => decide (d ∈ ds))

/-- Body of the `try/except` around one dataset's loader: the returned
result on success, `{"status": "error", "error": str(e)}` when the loader
raises. -/
def loaderEntry (loaders : String → Except String DsResult) (d : String) :
    String × DsResult :=
  match loaders d with
  | Except.ok r => (d, r)
  | Except.error e => (d, ⟨"error", some e⟩)

/-- The dataset loop and summary of `run_ingest`: every dataset gets a
results entry, and `overall_status` is `"partial_success"` when any entry
has `status == "error"`, else `"success"`. -/
def runLoop (loaders : String → Except String DsResult) (ds : List String) :
    List (String × DsResult) × String :=
  let entries := ds.map (loaderEntry loaders)
  (entries,
    if (entries.filter (fun p => p.2.status == "error")).isEmpty then "success"
    else "partial_success")

/-- `run_ingest(mode, ..., datasets, ...)`: raises `ValueError`
(`Except.error`) when the selection names an unknown dataset, otherwise
loads the selected datasets in `DATASET_ORDER` order and returns the
per-dataset results with the overall status. -/
def run_ingest (datasets : Option (List String))
    (loaders : String → Except String DsResult) :
    Except String (List (String × DsResult) × String) :=
  match datasets with
  | some ds =>
    if ds.any (fun d => decide (d ∉ DATASET_ORDER)) then
      Except.error "Invalid datasets"
    else Except.ok (runLoop loaders (load_datasets (some ds)))
  | none => Except.ok (runLoop loaders (load_datasets none))

instance {e s : Type} [DecidableEq e] [DecidableEq s] : DecidableEq (Except e s) := fun a b =>
  match a, b with
  | Except.error x, Except.error y =>
    if h : x = y then isTrue (by rw [h]) else isFalse (by intro hh; cases hh; exact h rfl)
  | Except.ok x, Except.ok y =>
    if h : x = y then isTrue (by rw [h]) else isFalse (by intro hh; cases hh; exact h rfl)
  | Except.error _, Except.ok _ => isFalse (by intro hh; cases hh)
  | Except.ok _, Except.error _ => isFalse (by intro hh; cases hh)

/-- `main()` of `cbb_v2/run_ingest.py`, reduced to its process exit status
(the name `main` itself is reserved in Lean): `sys.exit(1)` when
`run_ingest` raised or when the overall status is not `"success"`, exit 0
otherwise. -/
def main_exit_status (datasets : Option (List String))
    (loaders : String → Except String DsResult) : Nat :=
  match run_ingest datasets loaders with
  | Except.error _ => 1
  | Except.ok r => if r.2 == "success" then 0 else 1

theorem loaderEntry_fst (loaders : String → Except String DsResult)
    (d : String) : (loaderEntry loaders d).1 = d := by
  unfold loaderEntry
  cases loaders d <;> rfl

/-- C8: whenever `run_ingest` returns a summary, that summary holds a
status entry for every requested dataset — a dataset whose loader raised
is recorded with an `"error"` status and the captured message while the
run continues — and the process exit status is 1 whenever at least one
dataset failed. -/
theorem c8_run_summary_complete (datasets : Option (List String))
    (loaders : String → Except String DsResult)
    (entries : List (String × DsResult)) (overall : String)
    (hok : run_ingest datasets loaders = Except.ok (entries, overall)) :
    entries = (load_datasets datasets).map (loaderEntry loaders)
    ∧ (∀ d ∈ load_datasets datasets, ∃ r : DsResult, (d, r) ∈ entries)
    ∧ (∀ d e, d ∈ load_datasets datasets → loaders d = Except.error e →
        (d, (⟨"error", some e⟩ : DsResult)) ∈ entries)
    ∧ ((∃ p ∈ entries, p.2.status = "error") →
        main_exit_status datasets loaders = 1) := by
  have hrl : runLoop loaders (load_datasets datasets) = (entries, overall) := by
    cases datasets with
    | none =>
      simp only [run_ingest] at hok
      exact Except.ok.inj hok
    | some ds =>
      simp only [run_ingest] at hok
      split at hok
      · cases hok
      · exact Except.ok.inj hok
  have hentries : entries = (load_datasets datasets).map (loaderEntry loaders) := by
    have := congrArg Prod.fst hrl
    simp only [runLoop] at this
    exact this.symm
  have hoverall : overall =
      (if (entries.filter (fun p => p.2.status == "error")).isEmpty then "success"
       else "partial_success") := by
    have := congrArg Prod.snd hrl
    simp only [runLoop] at this
    rw [← hentries] at this
    exact this.symm
  refine ⟨hentries, ?_, ?_, ?_⟩
  · intro d hd
    refine ⟨(loaderEntry loaders d).2, ?_⟩
    rw [hentries]
    have heq : loaderEntry loaders d = (d, (loaderEntry loaders d).2) := by
      unfold loaderEntry
      cases loaders d <;> rfl
    rw [← heq]
    exact List.mem_map_of_mem _ hd
  · intro d e hd he
    rw [hentries]
    have : (d, (⟨"error", some e⟩ : DsResult)) = loaderEntry loaders d := by
      unfold loaderEntry
      rw [he]
    rw [this]
    exact List.mem_map_of_mem _ hd
  · intro ⟨p, hp, hps⟩
    have hfilter : p ∈ entries.filter (fun q => q.2.status == "error") :=
      List.mem_filter.mpr ⟨hp, by simp [hps]⟩
    have hne : (entries.filter (fun q => q.2.status == "error")).isEmpty = false := by
      cases hf : entries.filter (fun q => q.2.status == "error") with
      | nil => rw [hf] at hfilter; cases hfilter
      | cons x xs => rfl
    have hov : overall = "partial_success" := by
      rw [hoverall, hne]
      rfl
    unfold main_exit_status
    rw [hok, hov]
    rfl

/-- Witness for `c8_run_summary_complete`: the games loader raises, teams
succeeds; the summary still holds both datasets and the exit status is 1. -/
theorem c8_run_summary_complete_witness :
    (run_ingest (some ["teams", "games"])
        (fun d => if d = "games" then Except.error "boom"
                  else Except.ok ⟨"success", none⟩) =
      Except.ok ([("teams", ⟨"success", none⟩), ("games", ⟨"error", some "boom"⟩)],
        "partial_success"))
    ∧ (("teams" ∈ load_datasets (some ["teams", "games"]))
      ∧ ("games", (⟨"error", some "boom"⟩ : DsResult)) ∈
          [("teams", (⟨"success", none⟩ : DsResult)),
           ("games", ⟨"error", some "boom"⟩)]
      ∧ main_exit_status (some ["teams", "games"])
          (fun d => if d = "games" then Except.error "boom"
                    else Except.ok ⟨"success", none⟩) = 1) :=
  ⟨by decide,
   by decide,
   (c8_run_summary_complete (some ["teams", "games"])
      (fun d => if d = "games" then Except.error "boom"
                else Except.ok ⟨"success", none⟩)
      [("teams", ⟨"success", none⟩), ("games", ⟨"error", some "boom"⟩)]
      "partial_success" (by decide)).2.2.1 "games" "boom" (by decide) (by decide),
   (c8_run_summary_complete (some ["teams", "games"])
      (fun d => if d = "games" then Except.error "boom"
                else Except.ok ⟨"success", none⟩)
      [("teams", ⟨"success", none⟩), ("games", ⟨"error", some "boom"⟩)]
      "partial_success" (by decide)).2.2.2
     ⟨("games", ⟨"error", some "boom"⟩), by decide, by decide⟩⟩

/-! ## Null-primary-key filter of the upsert loaders
(`cbb/load_cdc_to_postgres.py` `upsert_table`,
`cbb/upsert_incremental.py` `load_to_staging`) -/

/-- A dataframe cell: `columns` is `df.columns`, a row is the aligned value
tuple, and `none` models an SQL NULL / pandas NaN.  `cellAt` reads the
value of column `c` in a row. -/
def cellAt (columns : List String) (row : List (Option α)) (c : String) :
    Option α :=
  match columns.indexOf? c with
  | some i => (row.get? i).getD none
  | none => none

/-- The null-primary-key filter both loaders run before building the SQL
statement:
`for pk_col in pk_cols: if pk_col in df.columns: df = df[df[pk_col].notna()]`. -/
def dropNullPkRows (columns : List String) :
    List String → List (List (Option α)) → List (List (Option α))
  | [], rows => rows
  | pk :: pks, rows =>
    dropNullPkRows columns pks
      (if pk ∈ columns then
        rows.filter (fun row => (cellAt columns row pk).isSome)
      else rows)

/-- The `values` rows that `upsert_table` hands to `execute_values` for the
`ON CONFLICT` merge — and equally the rows `load_to_staging` inserts into
its staging table: the parquet rows after the null-primary-key filter. -/
def upsert_table_values (columns pk_cols : List String)
    (rows : List (List (Option α))) : List (List (Option α)) :=
  dropNullPkRows columns pk_cols rows

theorem dropNullPkRows_subset (columns : List String) (pks : List String) :
    ∀ (rows : List (List (Option α))) row,
      row ∈ dropNullPkRows columns pks rows → row ∈ rows := by
  induction pks with
  | nil => intro rows row h; exact h
  | cons p ps ih =>
    intro rows row h
    unfold dropNullPkRows at h
    by_cases hp : p ∈ columns
    · rw [if_pos hp] at h
      exact List.mem_of_mem_filter (ih _ row h)
    · rw [if_neg hp] at h
      exact ih _ row h

/-- C10: every row the upsert loaders hand to the merge (or stage for it)
has a non-null value in every primary-key column — rows with a null in any
primary-key column are dropped beforehand (provided the parquet file
carries the primary-key columns, as the CDC outputs do). -/
theorem c10_merged_rows_have_nonnull_pk (columns pk_cols : List String)
    (rows : List (List (Option α)))
    (hpk : ∀ k ∈ pk_cols, k ∈ columns) :
    ∀ row ∈ upsert_table_values columns pk_cols rows,
      ∀ k ∈ pk_cols, (cellAt columns row k).isSome = true := by
  unfold upsert_table_values
  induction pk_cols generalizing rows with
  | nil => intro row _ k hk; cases hk
  | cons p ps ih =>
    intro row hrow k hk
    unfold dropNullPkRows at hrow
    have hpcol : p ∈ columns := hpk p (List.mem_cons_self p ps)
    rw [if_pos hpcol] at hrow
    rcases List.mem_cons.mp hk with heq | htail
    · subst heq
      have hmem := dropNullPkRows_subset columns ps _ row hrow
      exact (List.mem_filter.mp hmem).2
    · exact ih _ (fun j hj => hpk j (List.mem_cons_of_mem p hj)) row hrow k htail

/-- Witness for `c10_merged_rows_have_nonnull_pk`: a betting-lines frame
keyed by `(game_id, provider)` with one complete row, one row with a null
`game_id` and one with a null `provider`; only the complete row remains. -/
theorem c10_merged_rows_have_nonnull_pk_witness :
    (∀ k ∈ ["game_id", "provider"], k ∈ ["game_id", "provider", "spread"])
    ∧ (upsert_table_values ["game_id", "provider", "spread"]
        ["game_id", "provider"]
        [[some (1 : Nat), some 10, some 3],
         [none, some 20, some 4],
         [some 2, none, some 5]] = [[some 1, some 10, some 3]])
    ∧ (∀ row ∈ upsert_table_values ["game_id", "provider", "spread"]
          ["game_id", "provider"]
          [[some (1 : Nat), some 10, some 3],
           [none, some 20, some 4],
           [some 2, none, some 5]],
        ∀ k ∈ ["game_id", "provider"],
          (cellAt ["game_id", "provider", "spread"] row k).isSome = true) :=
  ⟨by decide, by decide,
   c10_merged_rows_have_nonnull_pk ["game_id", "provider", "spread"]
     ["game_id", "provider"]
     [[some (1 : Nat), some 10, some 3],
      [none, some 20, some 4],
      [some 2, none, some 5]] (by decide)⟩
